import Mathlib

/-
  Verification of the Honeycomb digital-asset-rpc-infrastructure core against
  its natural-language specification.

  Shallow embedding of:
  - program_transformers/src/noop/db.rs (compressed-data ledger, character history)
  - program_transformers/src/lib.rs (handle_transaction dispatch loop)
  - program_transformers/src/token_extensions/token_account.rs
  - grpc-ingest/src/grpc.rs (ingest fan-in transaction path and pending sweep)
  - blockbuster/src/programs/hpl_character_manager/mod.rs and
    blockbuster/src/programs/hpl_nectar_missions/mod.rs (handle_account)

  Machine integers are modelled as Nat/Int with explicit reduction mod 2^w where
  overflow matters.  External crate functionality (hpl_toolkit Schema/SchemaValue
  serialization, keccak, borsh) is abstracted into an `Ext` record of function
  parameters; everything from the repository itself is translated directly.
-/

namespace DasCore

/-- JSON values (serde_json::Value), with numbers as unbounded integers; the
repository only manipulates integral JSON numbers (u64/i64). -/
inductive JsonValue where
  | null : JsonValue
  | bool : Bool → JsonValue
  | num : Int → JsonValue
  | str : String → JsonValue
  | arr : List JsonValue → JsonValue
  | obj : List (String × JsonValue) → JsonValue

/-- Values of the external hpl_toolkit `SchemaValue` type, with the variants the
repository's code matches on (Enum carries a tag and boxed payload). -/
inductive SchemaValue where
  | null : SchemaValue
  | bool : Bool → SchemaValue
  | num : Int → SchemaValue
  | str : String → SchemaValue
  | arr : List SchemaValue → SchemaValue
  | obj : List (String × SchemaValue) → SchemaValue
  | enum : String → SchemaValue → SchemaValue

/-- Lookup in a serde_json object (Map::get). -/
def jGet (fields : List (String × JsonValue)) (k : String) : Option JsonValue :=
  (fields.find? (fun kv => kv.1 == k)).map (·.2)

/-- Lookup in an hpl_toolkit SchemaValue object (get on the object map). -/
def sGet (fields : List (String × SchemaValue)) (k : String) : Option SchemaValue :=
  (fields.find? (fun kv => kv.1 == k)).map (·.2)

/-- serde_json Value::as_u64: an integral number in [0, 2^64). -/
def asU64 : JsonValue → Option Nat
  | .num n => if 0 ≤ n ∧ n < 2 ^ 64 then some n.toNat else none
  | _ => none

/-- serde_json Value::as_bool. -/
def asBool : JsonValue → Option Bool
  | .bool b => some b
  | _ => none

mutual

/-- Compact JSON text rendering (used to model Postgres json text extraction). -/
def renderJson : JsonValue → String
  | .null => "null"
  | .bool b => if b then "true" else "false"
  | .num n => toString n
  | .str s => "\"" ++ s ++ "\""
  | .arr xs => "[" ++ renderJsonList xs ++ "]"
  | .obj xs => "\x7b" ++ renderJsonPairs xs ++ "\x7d"

def renderJsonList : List JsonValue → String
  | [] => ""
  | [x] => renderJson x
  | x :: y :: xs => renderJson x ++ "," ++ renderJsonList (y :: xs)

def renderJsonPairs : List (String × JsonValue) → String
  | [] => ""
  | [(k, v)] => "\"" ++ k ++ "\":" ++ renderJson v
  | (k, v) :: p :: xs => "\"" ++ k ++ "\":" ++ renderJson v ++ "," ++ renderJsonPairs (p :: xs)

end

/-- Postgres `->>` operator: extract a JSON field as text; SQL NULL on json null. -/
def pgJsonText : JsonValue → Option String
  | .null => none
  | .bool b => some (if b then "true" else "false")
  | .num n => some (toString n)
  | .str s => some s
  | .arr xs => some (renderJson (.arr xs))
  | .obj xs => some (renderJson (.obj xs))

/-- Wrap-around modulus of Rust u64 arithmetic. -/
def u64Mod : Nat := 2 ^ 64

/-- Cast of an unsigned value to Rust i64 (as-cast semantics). -/
def i64cast (n : Nat) : Int :=
  if n % u64Mod < 2 ^ 63 then Int.ofNat (n % u64Mod)
  else Int.ofNat (n % u64Mod) - Int.ofNat u64Mod

/-- Little-endian bytes of a u32 (leaf_idx.to_le_bytes()). -/
def u32le (n : Nat) : List Nat :=
  [n % 256, n / 256 % 256, n / 256 ^ 2 % 256, n / 256 ^ 3 % 256]

/-- Hex string of one byte. -/
def hexByte (b : Nat) : String :=
  let digit := fun (d : Nat) =>
    String.singleton (if d < 10 then Char.ofNat (48 + d) else Char.ofNat (87 + d))
  digit (b / 16 % 16) ++ digit (b % 16)

/-- hex::encode of a byte sequence. -/
def hexEncode (bs : List Nat) : String :=
  (bs.map hexByte).foldl (· ++ ·) ""

/-- Big-endian byte expansion of a natural number (empty for zero). -/
def natToBytes : Nat → List Nat
  | 0 => []
  | n + 1 => natToBytes ((n + 1) / 256) ++ [(n + 1) % 256]
decreasing_by exact Nat.div_lt_self (Nat.succ_pos n) (by omega)

/-- Value of one base58 character, if valid. -/
def b58Index (c : Char) : Option Nat :=
  let alphabet := "123456789ABCDEFGHJKLMNPQRSTUVWXYZabcdefghijkmnopqrstuvwxyz"
  alphabet.data.indexOf? c

/-- bs58::decode(...).into_vec(): base58 decoding to bytes. -/
def bs58Decode (s : String) : Option (List Nat) :=
  let idxs := s.data.map b58Index
  if idxs.contains none then none
  else
    let vals := idxs.filterMap id
    let n := vals.foldl (fun acc v => acc * 58 + v) 0
    let leading := (s.data.takeWhile (· == '1')).length
    some (List.replicate leading 0 ++ natToBytes n)

/-- get_result_from_delta (noop/db.rs): `min + ((delta * (max - min)) / 100)` in
Rust u64 arithmetic, so subtraction, multiplication and addition wrap mod 2^64. -/
def getResultFromDelta (mn mx delta : Nat) : Nat :=
  let range := (u64Mod + mx - mn) % u64Mod
  (mn + (delta * range) % u64Mod / 100) % u64Mod

/-- calculate_reward (noop/db.rs): extract delta/reward_idx/collected from the
event reward object, gate on collected, index the mission's rewards slots and
emit the reward/reward_type object. -/
def calculateReward (eventReward : JsonValue) (parsedDataRewards : List JsonValue) :
    Option JsonValue :=
  match eventReward with
  | .obj ev =>
    match jGet ev "delta" >>= asU64, jGet ev "reward_idx" >>= asU64,
        jGet ev "collected" >>= asBool with
    | some delta, some rewardIdx, some collected =>
      if !collected then none
      else
        match parsedDataRewards.get? rewardIdx with
        | some (.obj minMax) =>
          match jGet minMax "min" >>= asU64, jGet minMax "max" >>= asU64,
              jGet minMax "reward_type" with
          | some mn, some mx, some rewardType =>
            some (.obj [("reward", .num (Int.ofNat (getResultFromDelta mn mx delta))),
                        ("reward_type", rewardType)])
          | _, _, _ => none
        | _ => none
    | _, _, _ => none
  | _ => none

/-- is_any_reward_collected (noop/db.rs). -/
def isAnyRewardCollected (params : SchemaValue) : Bool :=
  match params with
  | .obj o =>
    match sGet o "rewards" with
    | some (.arr rewardsArray) =>
      rewardsArray.any fun reward =>
        match reward with
        | .obj rewardObj =>
          match sGet rewardObj "collected" with
          | some (.bool collected) => collected
          | _ => false
        | _ => false
    | _ => false
  | _ => false

/-- create_params (noop/db.rs): the params object of the rewritten used_by. -/
def createParams (preUsedByKind : String) (eventParticipantIds : List Int)
    (rewards : List JsonValue) (lastEventId : Option Int) : JsonValue :=
  .obj [("pre_used_by", .str preUsedByKind),
        ("event_participant_ids", .arr (eventParticipantIds.map JsonValue.num)),
        ("last_event_id", match lastEventId with
          | some i => .num i
          | none => .null),
        ("rewards", .arr rewards)]

/-- Errors of the program-transformer pipeline (ProgramTransformerError), plus a
`panicked` case modelling a Rust panic (unwrap of None, slice out of range). -/
inductive XformErr where
  | storageRead : String → XformErr
  | storageWrite : String → XformErr
  | compressedDataParse : String → XformErr
  | parsing : String → XformErr
  | deserialization : String → XformErr
  | serialization : String → XformErr
  | notImplemented : XformErr
  | panicked : String → XformErr
deriving DecidableEq

/-- merkle_tree row (digital_asset_types dao::merkle_tree::Model). -/
structure MerkleTreeRow where
  id : List Nat
  discriminator : List Nat
  program : Option (List Nat)
  dataSchema : List Nat
  canopyDepth : Int

/-- compressed_data row; columns per the entity used by noop/db.rs and §6. -/
structure CompressedDataRow where
  id : List Nat
  treeId : List Nat
  leafIdx : Int
  seq : Int
  schemaValidated : Bool
  rawData : List Nat
  parsedData : JsonValue
  slotUpdated : Int

/-- compressed_data_changelog row (dao::compressed_data_changelog::Model). -/
structure ChangelogRow where
  treeId : List Nat
  leafIdx : Int
  key : Option String
  data : JsonValue
  seq : Int
  slot : Int

/-- character_history row; unique on (character_id, event, slot_updated). -/
structure CharacterHistoryRow where
  id : Int
  characterId : List Nat
  event : String
  eventData : JsonValue
  slotUpdated : Int

/-- accounts row (account-state materialized view), fields used by db.rs. -/
structure AccountRow where
  id : List Nat
  parsedData : JsonValue

/-- The relational store as seen by the noop/db.rs handlers. -/
structure DB where
  merkleTree : List MerkleTreeRow
  compressedData : List CompressedDataRow
  changelog : List ChangelogRow
  characterHistory : List CharacterHistoryRow
  accounts : List AccountRow
  nextHistoryId : Int

/-- External-crate functionality that the embedded code calls: hpl_toolkit
schema deserialization-plus-validation (validation may mutate the value, hence
the Option result carries the possibly-mutated value), borsh serialization,
SchemaValue/JsonValue conversions and Display, and the keccak hash used to
compute leaf ids.  The theorems quantify over these. -/
structure Ext where
  schemaOfBytes : List Nat → Option (SchemaValue → Option SchemaValue)
  serialize : SchemaValue → Option (List Nat)
  svToJson : SchemaValue → JsonValue
  jsonToSv : JsonValue → SchemaValue
  svDisplay : SchemaValue → String
  hashv : List Nat → List Nat → List Nat

/-- Pubkey::try_from(Vec<u8>): succeeds exactly on 32-byte inputs. -/
def pubkeyTryFrom (bytes : List Nat) : Option (List Nat) :=
  if bytes.length = 32 then some bytes else none

/-- Byte value of the character-manager program id
ChRCtrG7X5kb9YncA4wuyD68DXXL8Szt3zBCCGiioBTg. -/
def characterManagerId : List Nat :=
  (bs58Decode "ChRCtrG7X5kb9YncA4wuyD68DXXL8Szt3zBCCGiioBTg").getD []

/-- new_character_event (noop/db.rs): insert a character_history row unless a
row with the same (character_id, event, slot_updated) already exists. -/
def newCharacterEvent (ext : Ext) (db : DB) (characterId : List Nat)
    (eventData : SchemaValue) (event : String) (slot : Int) : Except XformErr DB :=
  if db.characterHistory.any fun h =>
      h.characterId == characterId && h.event == event && h.slotUpdated == slot then
    .ok db
  else
    .ok { db with
      characterHistory := db.characterHistory ++
        [{ id := db.nextHistoryId, characterId := characterId, event := event,
           eventData := ext.svToJson eventData, slotUpdated := slot }],
      nextHistoryId := db.nextHistoryId + 1 }

/-- Row predicate of the SQL fragment
`event_data->'params'->>'participation_id' = $1` used by log_character_history. -/
def historyMatchesParticipation (h : CharacterHistoryRow) (pidText : String) : Bool :=
  match h.eventData with
  | .obj o =>
    match jGet o "params" with
    | some (.obj p) =>
      match jGet p "participation_id" with
      | some v => pgJsonText v == some pidText
      | none => false
    | _ => false
  | _ => false

/-- strip_prefix("pubkey:") on the mission id. -/
def stripPubkeyTag (s : String) : Option String :=
  if s.startsWith "pubkey:" then some (s.drop 7) else none

/-- update_new_used_by (noop/db.rs): resolve the mission account from the last
participation-history row, compute the collected rewards, and replace the
used_by value with `None \x7b pre_used_by, event_participant_ids, last_event_id,
rewards \x7d`. -/
def updateNewUsedBy (ext : Ext) (db : DB) (newUsedByValue : SchemaValue)
    (preUsedByKind : String) (eventParticipantIds : List Int)
    (eventParticipantData : Option CharacterHistoryRow) (lastEventId : Option Int) :
    Except XformErr SchemaValue :=
  match newUsedByValue with
  | .enum _ _ => do
    let allRewards : List JsonValue ←
      match eventParticipantData with
      | none => Except.ok []
      | some histRow =>
        match histRow.eventData with
        | .obj o =>
          match jGet o "params" with
          | some (.obj params) =>
            match jGet params "mission_id" with
            | some (.str missionId) =>
              match stripPubkeyTag missionId with
              | none => Except.error (.parsing "Invalid id format")
              | some strippedId =>
                match bs58Decode strippedId with
                | none => Except.error (.parsing "Failed to decode id")
                | some idVec =>
                  match db.accounts.find? (fun a => a.id == idVec) with
                  | none => Except.error (.storageRead "Could not find account data in db")
                  | some account =>
                    match account.parsedData with
                    | .obj parsedJson =>
                      match jGet parsedJson "rewards", jGet params "rewards" with
                      | some (.arr parsedDataRewards), some (.arr eventDataRewards) =>
                        Except.ok (eventDataRewards.filterMap
                          (fun er => calculateReward er parsedDataRewards))
                      | _, _ => Except.ok []
                    | _ => Except.error (.parsing "Failed to extract parsed_data as object")
            | _ => Except.ok []
          | _ => Except.ok []
        | _ => Except.ok []
    Except.ok (SchemaValue.enum "None"
      (ext.jsonToSv (createParams preUsedByKind eventParticipantIds allRewards lastEventId)))
  | other => Except.ok other

/-- The (pre_used_by kind, new_used_by kind) → event match of
log_character_history, in source order. -/
def eventForTransition (preUsedByKind newUsedByKind : String) : Option String :=
  match preUsedByKind, newUsedByKind with
  | "Ejected", "None" => some "Wrapped"
  | "None", "Staking" => some "Staked"
  | "None", "Mission" => some "MissionParticipation"
  | "Staking", "None" => some "UnStaked"
  | "Staking", "Staking" => some "ClaimedStakingReward"
  | "Mission", "None" => some "RecallFromMission"
  | "Mission", "Mission" => some "ClaimedMissionReward"
  | _, "Ejected" => some "UnWrapped"
  | _, _ => none

/-- log_character_history (noop/db.rs). -/
def logCharacterHistory (ext : Ext) (db : DB) (characterId : List Nat)
    (preUsedBy newUsedBy : SchemaValue) (slot : Int) : Except XformErr DB :=
  match preUsedBy with
  | .enum preUsedByKind preParams =>
    match newUsedBy with
    | .enum _ _ =>
      match eventForTransition preUsedByKind
          (match newUsedBy with
            | .enum k _ => k
            | _ => "") with
      | none => .ok db
      | some event => do
        let newVal : SchemaValue ←
          if event == "RecallFromMission" then
            if isAnyRewardCollected preParams then
              match preParams with
              | .obj pobj =>
                match sGet pobj "participation_id" with
                | some participationId =>
                  let pidText := ext.svDisplay participationId
                  let found := db.characterHistory.filter
                    (fun h => historyMatchesParticipation h pidText)
                  if found.isEmpty then
                    Except.error
                      (.storageRead "Could not find old character history data in the db")
                  else
                    let ids := found.map (·.id)
                    updateNewUsedBy ext db newUsedBy preUsedByKind ids
                      found.getLast? ids.getLast?
                | none => Except.ok newUsedBy
              | _ => Except.ok newUsedBy
            else Except.ok newUsedBy
          else Except.ok newUsedBy
        newCharacterEvent ext db characterId newVal event slot
    | _ => .ok db
  | _ => .ok db

/-- Insert with ON CONFLICT (tree_id, leaf_idx) DO UPDATE on every column except
id, as built by handle_full_leaf. -/
def upsertCompressed (rows : List CompressedDataRow) (item : CompressedDataRow) :
    List CompressedDataRow :=
  if rows.any fun r => r.treeId == item.treeId && r.leafIdx == item.leafIdx then
    rows.map fun r =>
      if r.treeId == item.treeId && r.leafIdx == item.leafIdx then
        { item with id := r.id }
      else r
  else rows ++ [item]

/-- handle_full_leaf (noop/db.rs). -/
def handleFullLeaf (ext : Ext) (db : DB) (id treeId : List Nat) (leafIdx : Int)
    (data : SchemaValue) (seq slot : Int) : Except XformErr DB := do
  let tree? := db.merkleTree.find? (fun t => t.id == treeId)
  let step : Bool × Option (List Nat) × SchemaValue ←
    match tree? with
    | none => Except.ok (false, none, data)
    | some tree =>
      match ext.schemaOfBytes tree.dataSchema with
      | none => Except.error (.compressedDataParse "schema deserialize error")
      | some validate =>
        match tree.program with
        | none => Except.error (.compressedDataParse "Tree program not found")
        | some programBytes =>
          match pubkeyTryFrom programBytes with
          | none => Except.error (.panicked "Pubkey::try_from failed")
          | some programId =>
            match validate data with
            | none => Except.error (.compressedDataParse "Schema value validation failed")
            | some validated => Except.ok (true, some programId, validated)
  let (schemaValidated, programId?, data') := step
  let raw : List Nat ←
    match ext.serialize data' with
    | none => Except.error (.compressedDataParse "serialize error")
    | some raw => Except.ok raw
  let item : CompressedDataRow :=
    { id := id, treeId := treeId, leafIdx := leafIdx, seq := seq,
      schemaValidated := schemaValidated, rawData := raw,
      parsedData := ext.svToJson data', slotUpdated := slot }
  let db1 := { db with compressedData := upsertCompressed db.compressedData item }
  match programId? with
  | some programId =>
    if programId == characterManagerId then
      match data' with
      | .obj character =>
        match sGet character "used_by" with
        | some kindObj => newCharacterEvent ext db1 id kindObj "NewCharacter" slot
        | none => Except.ok db1
      | _ => Except.ok db1
    else Except.ok db1
  | none => Except.ok db1

/-- The merkle-tree lookup and program-id resolution of handle_leaf_patch
(noop/db.rs 289-300): an absent tree yields no program id; a tree row whose
program column is null or not 32 bytes panics in the source (unwrap). -/
def resolveTreeProgram (db : DB) (treeId : List Nat) : Except XformErr (Option (List Nat)) :=
  match db.merkleTree.find? (fun t => t.id == treeId) with
  | none => Except.ok none
  | some tree =>
    match tree.program with
    | none => Except.error (.panicked "Option::unwrap on None")
    | some programBytes =>
      match pubkeyTryFrom programBytes with
      | none => Except.error (.panicked "Pubkey::try_from failed")
      | some programId => Except.ok (some programId)

/-- handle_leaf_patch (noop/db.rs). -/
def handleLeafPatch (ext : Ext) (db : DB) (id : List Nat) (key : String)
    (data : SchemaValue) (slot : Int) : Except XformErr DB := do
  match db.compressedData.find? (fun r => r.id == id) with
  | none => Except.error (.storageRead "Could not find old data in db")
  | some dbData =>
    let programId? : Option (List Nat) ← resolveTreeProgram db dbData.treeId
    let step : DB × JsonValue ←
      match dbData.parsedData with
      | .obj object =>
        if (object.find? (fun kv => kv.1 == key)).isSome then do
          let db1 : DB ←
            if key == "used_by" then
              match programId? with
              | some programId =>
                if programId == characterManagerId then
                  match jGet object "used_by" with
                  | some usedBy =>
                    logCharacterHistory ext db id (ext.jsonToSv usedBy) data slot
                  | none => Except.ok db
                else Except.ok db
              | none => Except.ok db
            else Except.ok db
          Except.ok (db1, JsonValue.obj (object.map fun kv =>
            if kv.1 == key then (kv.1, ext.svToJson data) else kv))
        else Except.ok (db, .obj object)
      | v => Except.ok (db, v)
    let (db1, newParsed) := step
    Except.ok { db1 with compressedData := db1.compressedData.map fun r =>
      if r.id == id then { r with parsedData := newParsed, slotUpdated := slot } else r }

/-- handle_empty_leaf (noop/db.rs): delete the row by id, error if absent. -/
def handleEmptyLeaf (db : DB) (id : List Nat) : Except XformErr DB :=
  match db.compressedData.find? (fun r => r.id == id) with
  | none => Except.error (.storageRead "Could not find old data in db")
  | some _ =>
    Except.ok { db with compressedData := db.compressedData.filter fun r => !(r.id == id) }

/-- handle_change_log (noop/db.rs): append one changelog row. -/
def handleChangeLog (ext : Ext) (db : DB) (treeId : List Nat) (leafIdx : Int)
    (key : Option String) (data : SchemaValue) (seq slot : Int) : Except XformErr DB :=
  .ok { db with changelog := db.changelog ++
    [{ treeId := treeId, leafIdx := leafIdx, key := key, data := ext.svToJson data,
       seq := seq, slot := slot }] }

/-- CompressedDataEventStream (hpl_toolkit event payload tags). -/
inductive CompressedDataEventStream where
  | full : SchemaValue → CompressedDataEventStream
  | patchChunk : String → SchemaValue → CompressedDataEventStream
  | empty : CompressedDataEventStream

/-- handle_leaf (noop/db.rs): compute the leaf id, dispatch on the stream type,
and append a changelog row for Full and PatchChunk events. -/
def handleLeaf (ext : Ext) (db : DB) (treeId : List Nat) (leafIdx : Nat)
    (streamType : CompressedDataEventStream) (seq slot : Nat) : Except XformErr DB := do
  let compressedDataId := ext.hashv treeId (u32le leafIdx)
  let leafIdxI := Int.ofNat leafIdx
  let seqI := i64cast seq
  let slotI := i64cast slot
  match streamType with
  | .full data => do
    let db1 ← handleFullLeaf ext db compressedDataId treeId leafIdxI data seqI slotI
    handleChangeLog ext db1 treeId leafIdxI none data seqI slotI
  | .patchChunk key data => do
    let db1 ← handleLeafPatch ext db compressedDataId key data slotI
    handleChangeLog ext db1 treeId leafIdxI (some key) data seqI slotI
  | .empty => handleEmptyLeaf db compressedDataId

/-- SubscribeUpdateTransactionInfo fields the fan-in inspects. -/
structure TxnInfo where
  signature : List Nat
  metaPresent : Bool
  metaErr : Bool

/-- SubscribeUpdateTransaction: optional inner info plus its protobuf encoding
(encode_to_vec is kept abstract as an opaque byte list). -/
structure TxnUpdate where
  info : Option TxnInfo
  encoded : List Nat

/-- The fan-in loop state owned by the management task in grpc.rs:
the seen LRU cache, the pending map, the two transaction streams of the redis
pipeline, and the pipeline counter. -/
structure IngestState where
  seen : List (String × Nat)
  pending : List (String × Nat × Nat × TxnUpdate)
  streamTransactions : List (List Nat)
  streamTxnCache : List (List Nat)
  pipeTransactions : Nat

/-- LruCache::get_mut followed by `*cache += 1`: bump the counter and promote
the key to most-recently-used; none when absent. -/
def lruGetTouch (cache : List (String × Nat)) (k : String) :
    Option (List (String × Nat)) :=
  match cache.find? (fun e => e.1 == k) with
  | none => none
  | some (_, v) => some ((k, v + 1) :: cache.filter (fun e => !(e.1 == k)))

/-- LruCache::put with capacity cap: insert most-recently-used, evict beyond
capacity. -/
def lruPut (cap : Nat) (cache : List (String × Nat)) (k : String) (v : Nat) :
    List (String × Nat) :=
  ((k, v) :: cache.filter (fun e => !(e.1 == k))).take cap

/-- HashMap::insert on the pending map (replaces an existing entry). -/
def pendingInsert (p : List (String × Nat × Nat × TxnUpdate)) (k : String)
    (v : Nat × Nat × TxnUpdate) : List (String × Nat × Nat × TxnUpdate) :=
  (k, v) :: p.filter (fun e => !(e.1 == k))

/-- The UpdateOneof::Transaction arm of the fan-in select loop (grpc.rs run):
filter out meta-less or failed transactions, consult the seen cache, then the
pending map, and otherwise append to the TRANSACTIONS and TXN_CACHE streams. -/
def processTxnUpdate (cap now : Nat) (st : IngestState) (endpointIndex : Nat)
    (transaction : TxnUpdate) : IngestState :=
  match transaction.info with
  | none => st
  | some info =>
    if !info.metaPresent || info.metaErr then st
    else
      let slotSignature := hexEncode info.signature
      match lruGetTouch st.seen slotSignature with
      | some seen' => { st with seen := seen' }
      | none =>
        if (st.pending.find? (fun e => e.1 == slotSignature)).isSome then
          { st with pending :=
              pendingInsert st.pending slotSignature (endpointIndex, now, transaction) }
        else
          { st with
            pending := st.pending.filter (fun e => !(e.1 == slotSignature)),
            seen := lruPut cap st.seen slotSignature 1,
            streamTransactions := st.streamTransactions ++ [transaction.encoded],
            streamTxnCache := st.streamTxnCache ++ [endpointIndex :: transaction.encoded],
            pipeTransactions := st.pipeTransactions + 1 }

/-- The 10-second interval tick of the fan-in loop: fold the pending map into a
new one, retaining entries newer than now - 10 and persisting the rest
(xadd to both streams, promote to the seen cache). -/
def sweepPending (cap now : Nat) (st : IngestState) : IngestState :=
  let desired := now - 10
  st.pending.foldl
    (fun acc e =>
      let (slotSignature, endpointIndex, timestamp, transaction) := e
      if desired < timestamp then
        { acc with pending := acc.pending ++ [e] }
      else
        { acc with
          seen := lruPut cap acc.seen slotSignature 1,
          streamTransactions := acc.streamTransactions ++ [transaction.encoded],
          streamTxnCache := acc.streamTxnCache ++ [endpointIndex :: transaction.encoded],
          pipeTransactions := acc.pipeTransactions + 1 })
    { st with pending := [] }

/-- spl_token_2022 AccountState. -/
inductive AcctState where
  | uninitialized
  | initialized
  | frozen
deriving DecidableEq, BEq

/-- The spl token account carried by blockbuster's TokenAccount parse result. -/
structure TokenAcctInfo where
  mint : List Nat
  owner : List Nat
  delegate : Option (List Nat)
  state : AcctState
  amount : Nat
  delegatedAmount : Nat

/-- AccountInfo envelope (program_transformers lib.rs). -/
structure AccountEnvelope where
  slot : Nat
  pubkey : List Nat
  owner : List Nat

/-- Modelled from the spec: the token_accounts row written by
upsert_owner_for_token_account (token.rs is not under src/); §4.4 and S6 only
require that the token-account row is upserted keyed by the account pubkey. -/
structure TokenAccountRow where
  pubkey : List Nat
  mint : List Nat
  owner : List Nat
  delegate : Option (List Nat)
  frozen : Bool
  amount : Nat
  delegatedAmount : Int
  slot : Int
  programOwner : List Nat

/-- Modelled from the spec: the asset row (§6: id PK, owner, delegate, frozen,
supply, slot_updated, …; the entity file is not under src/), plus the owner_type
column that the handler's filter in token_account.rs references. -/
structure AssetRow where
  id : List Nat
  owner : Option (List Nat)
  delegate : Option (List Nat)
  frozen : Bool
  supply : Int
  slotUpdated : Option Int
  ownerType : String
  mintExtensions : Option JsonValue

/-- Store slice touched by the token-account handler. -/
structure TokenDB where
  assets : List AssetRow
  tokenAccounts : List TokenAccountRow

/-- Replace the first element satisfying p by its image under f. -/
def updateFirst (p : α → Bool) (f : α → α) : List α → List α
  | [] => []
  | x :: xs => if p x then f x :: xs else x :: updateFirst p f xs

/-- Modelled from the spec: upsert_owner_for_token_account (token.rs, not under
src/) upserts the token-account row by pubkey and does not touch the asset
table (S6). -/
def upsertOwnerForTokenAccount (db : TokenDB) (row : TokenAccountRow) : TokenDB :=
  if db.tokenAccounts.any (fun r => r.pubkey == row.pubkey) then
    { db with tokenAccounts :=
        updateFirst (fun r => r.pubkey == row.pubkey) (fun _ => row) db.tokenAccounts }
  else { db with tokenAccounts := db.tokenAccounts ++ [row] }

/-- Modelled from the spec: upsert_assets_token_account_columns
(asset_upserts.rs, not under src/): per §4.4 and S6 it writes owner, delegate,
frozen, mint extensions and slot_updated := incoming slot onto the asset row of
the mint, updating the existing row or inserting one. -/
def upsertAssetsTokenAccountColumns (db : TokenDB) (mint : List Nat)
    (owner : Option (List Nat)) (frozen : Bool) (delegate : Option (List Nat))
    (slotUpdated : Option Int) (mintExtensions : JsonValue) : TokenDB :=
  if db.assets.any (fun a => a.id == mint) then
    let setCols : AssetRow → AssetRow := fun a =>
      { a with
        owner := owner,
        delegate := delegate,
        frozen := frozen,
        slotUpdated := slotUpdated,
        mintExtensions := some mintExtensions }
    let assets' := updateFirst (fun a => a.id == mint) setCols db.assets
    { db with assets := assets' }
  else
    let newRow : AssetRow :=
      { id := mint, owner := owner, delegate := delegate, frozen := frozen,
        supply := 0, slotUpdated := slotUpdated, ownerType := "single",
        mintExtensions := some mintExtensions }
    { db with assets := db.assets ++ [newRow] }

/-- handle_token2022_token_account (token_extensions/token_account.rs). -/
def handleToken2022TokenAccount (db : TokenDB) (ta : TokenAcctInfo)
    (accountInfo : AccountEnvelope) (extensions : JsonValue) : Except XformErr TokenDB :=
  let accountKey := accountInfo.pubkey
  let accountOwner := accountInfo.owner
  let mint := ta.mint
  let delegate := ta.delegate
  let frozen := ta.state == AcctState.frozen
  let owner := ta.owner
  let db1 := upsertOwnerForTokenAccount db
    { pubkey := accountKey, mint := mint, owner := owner, delegate := delegate,
      frozen := frozen, amount := ta.amount,
      delegatedAmount := i64cast ta.delegatedAmount, slot := i64cast accountInfo.slot,
      programOwner := accountOwner }
  let assetUpdate := db1.assets.find? fun a =>
    a.id == mint && a.ownerType == "single" &&
      (match a.slotUpdated with
        | none => true
        | some s => decide (s ≤ i64cast accountInfo.slot))
  match assetUpdate with
  | some asset =>
    if asset.supply == 1 then
      let ownerUpdate := decide (0 < ta.amount) && !(some owner == asset.owner)
      let delegateUpdate := decide (0 < ta.amount) && !(delegate == asset.delegate)
      let freezeUpdate := decide (0 < ta.amount) && !(frozen == asset.frozen)
      let saveRequired := ownerUpdate || delegateUpdate || freezeUpdate
      if saveRequired then
        Except.ok (upsertAssetsTokenAccountColumns db1 mint (some owner) frozen delegate
          (some (i64cast accountInfo.slot)) extensions)
      else Except.ok db1
    else Except.ok db1
  | none => Except.ok db1

/-- Classification of a decoded instruction by the match in handle_transaction:
the three implemented arms, and `other` for the fall-through arm that only
increments not_impl. -/
inductive ParseKind where
  | bubblegum
  | accountCompression
  | noop
  | other
deriving DecidableEq

/-- One outer instruction as dispatched by handle_transaction. -/
structure IxEntry where
  program : List Nat
  accounts : List Nat

/-- ix_accounts.iter().max().copied().unwrap_or(0). -/
def maxAccountIdx (ix : IxEntry) : Nat := ix.accounts.foldl max 0

/-- The account-key resolution fold of handle_transaction: indices out of range
are silently dropped. -/
def resolveKeys (accountKeys : List (List Nat)) (ix : IxEntry) : List (List Nat) :=
  ix.accounts.filterMap (fun a => accountKeys.get? a)

/-- The for-loop of handle_transaction (lib.rs 182-273), returning the final
not_impl counter.  Decoding (program.handle_instruction) and the three
program handlers are abstracted into outcome functions; noop handler errors are
swallowed by the source, so the noop outcome is ignored. -/
def handleTransactionLoop (matchProgram : List Nat → Bool)
    (decode : IxEntry → Except XformErr ParseKind)
    (runHandler : IxEntry → ParseKind → Except XformErr Unit)
    (accountKeys : List (List Nat)) :
    List IxEntry → Nat → Except XformErr Nat
  | [], notImpl => .ok notImpl
  | ix :: rest, notImpl =>
    if accountKeys.length < maxAccountIdx ix then
      .error (.deserialization "Missing Accounts in Serialized Ixn/Txn")
    else if matchProgram ix.program then
      match decode ix with
      | .error e => .error e
      | .ok .bubblegum =>
        match runHandler ix .bubblegum with
        | .error e => .error e
        | .ok _ => handleTransactionLoop matchProgram decode runHandler accountKeys rest notImpl
      | .ok .accountCompression =>
        match runHandler ix .accountCompression with
        | .error e => .error e
        | .ok _ => handleTransactionLoop matchProgram decode runHandler accountKeys rest notImpl
      | .ok .noop =>
        handleTransactionLoop matchProgram decode runHandler accountKeys rest notImpl
      | .ok .other =>
        handleTransactionLoop matchProgram decode runHandler accountKeys rest (notImpl + 1)
    else handleTransactionLoop matchProgram decode runHandler accountKeys rest notImpl

/-- handle_transaction (lib.rs): run the loop, then return NotImplemented when
not_impl equals the number of dispatched instructions. -/
def handleTransaction (matchProgram : List Nat → Bool)
    (decode : IxEntry → Except XformErr ParseKind)
    (runHandler : IxEntry → ParseKind → Except XformErr Unit)
    (accountKeys : List (List Nat)) (ixs : List IxEntry) : Except XformErr Unit :=
  match handleTransactionLoop matchProgram decode runHandler accountKeys ixs 0 with
  | .error e => .error e
  | .ok notImpl => if notImpl == ixs.length then .error .notImplemented else .ok ()

/-- Anchor account discriminators from the hpl account definitions. -/
def assemblerConfigDisc : List Nat := [5, 4, 69, 145, 53, 127, 224, 177]

def characterModelDisc : List Nat := [48, 232, 95, 182, 18, 16, 71, 113]

def assetCustodyDisc : List Nat := [214, 130, 16, 11, 2, 108, 220, 26]

def missionPoolDisc : List Nat := [106, 55, 99, 194, 178, 110, 104, 188]

def missionDisc : List Nat := [170, 56, 116, 75, 24, 11, 109, 12]

/-- HplCharacterManagerAccount variants, with the borsh-decoded payloads kept
polymorphic (their deserializers are passed in). -/
inductive HplCharacterManagerAccount (α β γ : Type) where
  | uninitialized
  | unknown
  | assemblerConfig : α → HplCharacterManagerAccount α β γ
  | characterModel : β → HplCharacterManagerAccount α β γ
  | assetCustody : γ → HplCharacterManagerAccount α β γ

/-- handle_account of HplCharacterManagerParser: empty data is Uninitialized;
otherwise the first 8 bytes are copied as the discriminator (which panics when
0 < len < 8), matched against the table, anything else is Unknown. -/
def characterManagerHandleAccount (deserAssemblerConfig : List Nat → Option α)
    (deserCharacterModel : List Nat → Option β) (deserAssetCustody : List Nat → Option γ)
    (accountData : List Nat) : Except XformErr (HplCharacterManagerAccount α β γ) :=
  if accountData.isEmpty then .ok .uninitialized
  else if accountData.length < 8 then
    .error (.panicked "copy_from_slice: source slice length mismatch")
  else
    let discriminator := accountData.take 8
    if discriminator == assemblerConfigDisc then
      match deserAssemblerConfig (accountData.drop 8) with
      | some v => .ok (.assemblerConfig v)
      | none => .error (.deserialization "DeserializationError")
    else if discriminator == characterModelDisc then
      match deserCharacterModel (accountData.drop 8) with
      | some v => .ok (.characterModel v)
      | none => .error (.deserialization "DeserializationError")
    else if discriminator == assetCustodyDisc then
      match deserAssetCustody (accountData.drop 8) with
      | some v => .ok (.assetCustody v)
      | none => .error (.deserialization "DeserializationError")
    else .ok .unknown

/-- HplNectarMissionsAccount variants. -/
inductive HplNectarMissionsAccount (α β : Type) where
  | uninitialized
  | unknown
  | missionPool : α → HplNectarMissionsAccount α β
  | mission : β → HplNectarMissionsAccount α β

/-- handle_account of HplNectarMissionsParser (same shape as the character
manager parser, two known discriminators). -/
def nectarMissionsHandleAccount (deserMissionPool : List Nat → Option α)
    (deserMission : List Nat → Option β) (accountData : List Nat) :
    Except XformErr (HplNectarMissionsAccount α β) :=
  if accountData.isEmpty then .ok .uninitialized
  else if accountData.length < 8 then
    .error (.panicked "copy_from_slice: source slice length mismatch")
  else
    let discriminator := accountData.take 8
    if discriminator == missionPoolDisc then
      match deserMissionPool (accountData.drop 8) with
      | some v => .ok (.missionPool v)
      | none => .error (.deserialization "DeserializationError")
    else if discriminator == missionDisc then
      match deserMission (accountData.drop 8) with
      | some v => .ok (.mission v)
      | none => .error (.deserialization "DeserializationError")
    else .ok .unknown

/-- Spec-side restatement of the character-lifecycle transition table (§4.5.3),
used to compare the source's match against the table as the spec lists it. -/
def eventForTransitionSpec (pre new : String) : Option String :=
  if pre = "Ejected" ∧ new = "None" then some "Wrapped"
  else if pre = "None" ∧ new = "Staking" then some "Staked"
  else if pre = "None" ∧ new = "Mission" then some "MissionParticipation"
  else if pre = "Staking" ∧ new = "None" then some "UnStaked"
  else if pre = "Staking" ∧ new = "Staking" then some "ClaimedStakingReward"
  else if pre = "Mission" ∧ new = "None" then some "RecallFromMission"
  else if pre = "Mission" ∧ new = "Mission" then some "ClaimedMissionReward"
  else if new = "Ejected" then some "UnWrapped"
  else none

/-- Concrete instantiation of the external-function record used to evaluate the
handlers on concrete inputs: the schema validator accepts every value
unchanged. -/
def extFix : Ext :=
  ⟨fun _ => some (fun v => some v), fun _ => some [], fun _ => .null, fun _ => .null,
   fun _ => "", fun a b => a ++ b⟩

/-- Concrete instantiation whose schema validator rejects every value. -/
def extRej : Ext :=
  ⟨fun _ => some (fun _ => none), fun _ => some [], fun _ => .null, fun _ => .null,
   fun _ => "", fun a b => a ++ b⟩

end DasCore

namespace DasCore

/-- C5 counterexample: the claim asserts the reward is computed in exact
unsigned integer arithmetic, but get_result_from_delta computes in u64
arithmetic, which wraps: with min = 0, max = 3, delta = 2^63, the code stores
reward 92233720368547758 while the exact value of min + ((delta * (max - min))
/ 100) is 276701161105643274. -/
theorem calculate_reward_exact_counterexample :
    calculateReward
        (.obj [("delta", .num 9223372036854775808), ("reward_idx", .num 0),
               ("collected", .bool true)])
        [.obj [("min", .num 0), ("max", .num 3), ("reward_type", .str "T")]]
      = some (.obj [("reward", .num 92233720368547758), ("reward_type", .str "T")])
    ∧ (92233720368547758 : Nat) ≠ 0 + 9223372036854775808 * (3 - 0) / 100 := by
  refine ⟨?_, by decide⟩
  rfl

/-- C5 amended: for every collected reward entry with a valid reward_idx, the
emitted object pairs the slot's reward_type with min + ((delta * (max - min)) /
100) computed in u64 wrapping arithmetic (getResultFromDelta); this agrees with
the exact integer formula whenever max ≥ min and neither the product nor the
final sum overflows u64; entries with collected == false produce no reward. -/
theorem calculate_reward_formula (ev : List (String × JsonValue))
    (rewards : List JsonValue) (mm : List (String × JsonValue))
    (delta rewardIdx mn mx : Nat) (rt : JsonValue)
    (hdelta : jGet ev "delta" >>= asU64 = some delta)
    (hidx : jGet ev "reward_idx" >>= asU64 = some rewardIdx)
    (hcol : jGet ev "collected" >>= asBool = some true)
    (hslot : rewards.get? rewardIdx = some (.obj mm))
    (hmn : jGet mm "min" >>= asU64 = some mn)
    (hmx : jGet mm "max" >>= asU64 = some mx)
    (hrt : jGet mm "reward_type" = some rt) :
    calculateReward (.obj ev) rewards
        = some (.obj [("reward", .num (Int.ofNat (getResultFromDelta mn mx delta))),
                      ("reward_type", rt)])
      ∧ (mx < u64Mod → mn ≤ mx → delta * (mx - mn) < u64Mod →
          mn + delta * (mx - mn) / 100 < u64Mod →
          getResultFromDelta mn mx delta = mn + delta * (mx - mn) / 100)
      ∧ (∀ (ev' : List (String × JsonValue)) (rewards' : List JsonValue),
          jGet ev' "collected" >>= asBool = some false →
          calculateReward (.obj ev') rewards' = none) := by
  refine ⟨?_, ?_, ?_⟩
  · simp only [calculateReward, hdelta, hidx, hcol, hslot, hmn, hmx, hrt]
    rfl
  · intro hmxb hle hprod hsum
    have hu : u64Mod = 18446744073709551616 := by norm_num [u64Mod]
    simp only [getResultFromDelta]
    have h1 : u64Mod + mx - mn = u64Mod + (mx - mn) := by omega
    have h2 : (u64Mod + (mx - mn)) % u64Mod = mx - mn := by
      rw [Nat.add_mod_left]
      exact Nat.mod_eq_of_lt (by omega)
    rw [h1, h2, Nat.mod_eq_of_lt hprod, Nat.mod_eq_of_lt hsum]
  · intro ev' rewards' hcol'
    simp only [calculateReward]
    cases hd : jGet ev' "delta" >>= asU64 with
    | none => rfl
    | some d =>
      cases hi : jGet ev' "reward_idx" >>= asU64 with
      | none => rfl
      | some i => simp [hcol']

/-- C5 amended witness: delta 50 between min 10 and max 110 yields reward 60. -/
theorem calculate_reward_formula_witness :
    calculateReward
        (.obj [("delta", .num 50), ("reward_idx", .num 0), ("collected", .bool true)])
        [.obj [("min", .num 10), ("max", .num 110), ("reward_type", .str "T")]]
      = some (.obj [("reward", .num 60), ("reward_type", .str "T")])
    ∧ getResultFromDelta 10 110 50 = 10 + 50 * (110 - 10) / 100 := by
  have h := calculate_reward_formula
    [("delta", .num 50), ("reward_idx", .num 0), ("collected", .bool true)]
    [.obj [("min", .num 10), ("max", .num 110), ("reward_type", .str "T")]]
    [("min", .num 10), ("max", .num 110), ("reward_type", .str "T")]
    50 0 10 110 (.str "T") rfl rfl rfl rfl rfl rfl rfl
  have h2 : getResultFromDelta 10 110 50 = 60 := by decide
  refine ⟨?_, by rw [h2]⟩
  rw [h.1, h2]
  rfl

/-- C8 counterexample: one-byte account data does not yield the Uninitialized
variant; the discriminator copy panics (slice of length 1 taken at ..8). -/
theorem handle_account_short_data_counterexample :
    characterManagerHandleAccount (fun _ => some 0) (fun _ => some 0) (fun _ => some 0) [0]
        = .error (.panicked "copy_from_slice: source slice length mismatch")
      ∧ ∀ v : HplCharacterManagerAccount Nat Nat Nat,
          characterManagerHandleAccount (fun _ => some 0) (fun _ => some 0)
            (fun _ => some 0) [0] ≠ .ok v := by
  refine ⟨rfl, ?_⟩
  intro v h
  simp [characterManagerHandleAccount] at h

/-- C8 amended: for the character-manager and nectar-missions account decoders,
empty data yields Uninitialized; non-empty data shorter than 8 bytes panics in
the discriminator copy; data of at least 8 bytes whose discriminator matches no
table entry yields Unknown without error. -/
theorem handle_account_discriminator_paths (α β γ α' β' : Type)
    (dA : List Nat → Option α) (dC : List Nat → Option β) (dU : List Nat → Option γ)
    (dP : List Nat → Option α') (dM : List Nat → Option β') (data : List Nat) :
    (data.isEmpty = true →
        characterManagerHandleAccount dA dC dU data = .ok .uninitialized
      ∧ nectarMissionsHandleAccount dP dM data = .ok .uninitialized)
  ∧ (data.isEmpty = false → data.length < 8 →
        characterManagerHandleAccount dA dC dU data
          = .error (.panicked "copy_from_slice: source slice length mismatch")
      ∧ nectarMissionsHandleAccount dP dM data
          = .error (.panicked "copy_from_slice: source slice length mismatch"))
  ∧ (data.isEmpty = false → ¬ data.length < 8 →
      (data.take 8 == assemblerConfigDisc) = false →
      (data.take 8 == characterModelDisc) = false →
      (data.take 8 == assetCustodyDisc) = false →
        characterManagerHandleAccount dA dC dU data = .ok .unknown)
  ∧ (data.isEmpty = false → ¬ data.length < 8 →
      (data.take 8 == missionPoolDisc) = false →
      (data.take 8 == missionDisc) = false →
        nectarMissionsHandleAccount dP dM data = .ok .unknown) := by
  refine ⟨?_, ?_, ?_, ?_⟩
  · intro h
    exact ⟨by simp [characterManagerHandleAccount, h], by simp [nectarMissionsHandleAccount, h]⟩
  · intro h hlen
    exact ⟨by simp [characterManagerHandleAccount, h, hlen],
           by simp [nectarMissionsHandleAccount, h, hlen]⟩
  · intro h hlen h1 h2 h3
    simp [characterManagerHandleAccount, h, hlen, h1, h2, h3]
  · intro h hlen h1 h2
    simp [nectarMissionsHandleAccount, h, hlen, h1, h2]

/-- C8 amended witness: a 9-byte account with an unrecognized discriminator is
Unknown for both decoders. -/
theorem handle_account_discriminator_paths_witness :
    characterManagerHandleAccount (fun _ => some 0) (fun _ => some 0) (fun _ => some 0)
        [1, 2, 3, 4, 5, 6, 7, 8, 9] = .ok .unknown
    ∧ nectarMissionsHandleAccount (fun _ => some 0) (fun _ => some 0)
        [1, 2, 3, 4, 5, 6, 7, 8, 9] = .ok .unknown := by
  have h := handle_account_discriminator_paths Nat Nat Nat Nat Nat
    (fun _ => some 0) (fun _ => some 0) (fun _ => some 0) (fun _ => some 0) (fun _ => some 0)
    [1, 2, 3, 4, 5, 6, 7, 8, 9]
  exact ⟨h.2.2.1 rfl (by decide) rfl rfl rfl, h.2.2.2 rfl (by decide) rfl rfl⟩

/-- C2 failing input, evaluated: a transaction whose signature (hex "ab") is in
neither the seen cache nor the pending map is appended to the TRANSACTIONS and
TXN_CACHE streams immediately and its signature is promoted straight into the
seen cache, while the pending map stays empty, contradicting the claimed
pending-hold flow (the fan-in inserts into pending only when the signature is
already pending, so the pending map can never become non-empty). -/
theorem ingest_pending_hold_failing_input :
    processTxnUpdate 100 50 ⟨[], [], [], [], 0⟩ 0 ⟨some ⟨[171], true, false⟩, [1, 2, 3]⟩
      = ⟨[("ab", 1)], [], [[1, 2, 3]], [[0, 1, 2, 3]], 1⟩ := by
  rfl

/-- C3: a PatchChunk or Empty event whose computed leaf id has no existing
compressed_data row makes handle_leaf return StorageReadError, leaving the
store (in particular compressed_data and the changelog) untouched. -/
theorem missing_leaf_storage_read_error (ext : Ext) (db : DB) (treeId : List Nat)
    (leafIdx : Nat) (key : String) (data : SchemaValue) (seq slot : Nat)
    (h : db.compressedData.find? (fun r => r.id == ext.hashv treeId (u32le leafIdx)) = none) :
    handleLeaf ext db treeId leafIdx (.patchChunk key data) seq slot
        = .error (.storageRead "Could not find old data in db")
      ∧ handleLeaf ext db treeId leafIdx .empty seq slot
        = .error (.storageRead "Could not find old data in db") := by
  constructor
  · simp only [handleLeaf, handleLeafPatch, h]
    rfl
  · simp only [handleLeaf, handleEmptyLeaf, h]

/-- C3 witness: on the empty store both events surface StorageReadError. -/
theorem missing_leaf_storage_read_error_witness :
    handleLeaf extFix ⟨[], [], [], [], [], 0⟩ [1] 0 (.patchChunk "k" (.bool true)) 0 0
        = .error (.storageRead "Could not find old data in db")
      ∧ handleLeaf extFix ⟨[], [], [], [], [], 0⟩ [1] 0 .empty 0 0
        = .error (.storageRead "Could not find old data in db") :=
  missing_leaf_storage_read_error extFix ⟨[], [], [], [], [], 0⟩ [1] 0 "k" (.bool true) 0 0 rfl

theorem handleTransactionLoop_deser_iff (mp : List Nat → Bool)
    (decode : IxEntry → Except XformErr ParseKind)
    (runHandler : IxEntry → ParseKind → Except XformErr Unit)
    (accountKeys : List (List Nat)) :
    ∀ (ixs : List IxEntry) (n : Nat),
      (∀ ix ∈ ixs, ∃ k, decode ix = .ok k) →
      (∀ ix ∈ ixs, ∀ k, runHandler ix k = .ok ()) →
      ((∃ ix ∈ ixs, accountKeys.length < maxAccountIdx ix) ↔
        handleTransactionLoop mp decode runHandler accountKeys ixs n
          = .error (.deserialization "Missing Accounts in Serialized Ixn/Txn")) := by
  intro ixs
  induction ixs with
  | nil => intro n _ _; simp [handleTransactionLoop]
  | cons ix rest ih =>
    intro n hdec hrun
    by_cases hidx : accountKeys.length < maxAccountIdx ix
    · have hR : handleTransactionLoop mp decode runHandler accountKeys (ix :: rest) n
          = .error (.deserialization "Missing Accounts in Serialized Ixn/Txn") := by
        simp [handleTransactionLoop, hidx]
      rw [hR]
      exact ⟨fun _ => rfl, fun _ => ⟨ix, List.mem_cons_self ix rest, hidx⟩⟩
    · rcases hdec ix (List.mem_cons_self ix rest) with ⟨k, hk⟩
      have hstep : ∃ m, handleTransactionLoop mp decode runHandler accountKeys (ix :: rest) n
          = handleTransactionLoop mp decode runHandler accountKeys rest m := by
        by_cases hmp : mp ix.program
        · cases k with
          | bubblegum =>
            exact ⟨n, by simp [handleTransactionLoop, hidx, hmp, hk,
              hrun ix (List.mem_cons_self ix rest) .bubblegum]⟩
          | accountCompression =>
            exact ⟨n, by simp [handleTransactionLoop, hidx, hmp, hk,
              hrun ix (List.mem_cons_self ix rest) .accountCompression]⟩
          | noop => exact ⟨n, by simp [handleTransactionLoop, hidx, hmp, hk]⟩
          | other => exact ⟨n + 1, by simp [handleTransactionLoop, hidx, hmp, hk]⟩
        · exact ⟨n, by simp [handleTransactionLoop, hidx, hmp]⟩
      rcases hstep with ⟨m, hm⟩
      rw [hm, ← ih m (fun i hi => hdec i (List.mem_cons_of_mem _ hi))
        (fun i hi => hrun i (List.mem_cons_of_mem _ hi))]
      constructor
      · rintro ⟨i, hi, hP⟩
        rcases List.mem_cons.mp hi with h1 | h1
        · exact absurd (h1 ▸ hP) hidx
        · exact ⟨i, h1, hP⟩
      · rintro ⟨i, hi, hP⟩
        exact ⟨i, List.mem_cons_of_mem _ hi, hP⟩

/-- C7 counterexample: an instruction referencing account index 1 with an
account-keys list of length 1 (index == length, hence out of range) does not
fail validation; the transaction completes and the decoder is still invoked. -/
theorem account_index_bounds_counterexample :
    handleTransaction (fun _ => true) (fun _ => .ok .noop) (fun _ _ => .ok ())
        [[0]] [⟨[1], [1]⟩] = .ok ()
      ∧ ([[0]] : List (List Nat)).length ≤ maxAccountIdx ⟨[1], [1]⟩
      ∧ resolveKeys [[0]] ⟨[1], [1]⟩ = [] := by
  exact ⟨rfl, by decide, rfl⟩

/-- C7 amended: handle_transaction fails with the deserialization error
"Missing Accounts in Serialized Ixn/Txn" if and only if some dispatched
instruction references an account index STRICTLY greater than the length of the
account-keys list; an index equal to the list length passes the check and is
silently dropped by the key-resolution fold (assuming decoding and the
instruction handlers themselves succeed). -/
theorem account_index_bounds_check (mp : List Nat → Bool)
    (decode : IxEntry → Except XformErr ParseKind)
    (runHandler : IxEntry → ParseKind → Except XformErr Unit)
    (accountKeys : List (List Nat)) (ixs : List IxEntry)
    (hdec : ∀ ix ∈ ixs, ∃ k, decode ix = .ok k)
    (hrun : ∀ ix ∈ ixs, ∀ k, runHandler ix k = .ok ()) :
    (∃ ix ∈ ixs, accountKeys.length < maxAccountIdx ix) ↔
      handleTransaction mp decode runHandler accountKeys ixs
        = .error (.deserialization "Missing Accounts in Serialized Ixn/Txn") := by
  constructor
  · intro hex
    have h := (handleTransactionLoop_deser_iff mp decode runHandler accountKeys ixs 0
      hdec hrun).mp hex
    simp [handleTransaction, h]
  · intro hres
    apply (handleTransactionLoop_deser_iff mp decode runHandler accountKeys ixs 0
      hdec hrun).mpr
    rcases hloop : handleTransactionLoop mp decode runHandler accountKeys ixs 0 with e | m
    · simp only [handleTransaction, hloop] at hres
      simp only [Except.error.injEq] at hres
      rw [hres]
    · simp only [handleTransaction, hloop] at hres
      split at hres <;> simp_all

/-- C7 amended witness: index 2 against one account key fails the check. -/
theorem account_index_bounds_check_witness :
    handleTransaction (fun _ => true) (fun _ => .ok .noop) (fun _ _ => .ok ())
        [[0]] [⟨[1], [2]⟩]
      = .error (.deserialization "Missing Accounts in Serialized Ixn/Txn") := by
  refine (account_index_bounds_check (fun _ => true) (fun _ => .ok .noop)
    (fun _ _ => .ok ()) [[0]] [⟨[1], [2]⟩] ?_ ?_).mp ?_
  · intro ix _; exact ⟨.noop, rfl⟩
  · intro ix _ k; rfl
  · exact ⟨⟨[1], [2]⟩, List.mem_cons_self _ _, by decide⟩

theorem handleTransactionLoop_all_other (mp : List Nat → Bool)
    (decode : IxEntry → Except XformErr ParseKind)
    (runHandler : IxEntry → ParseKind → Except XformErr Unit)
    (accountKeys : List (List Nat)) :
    ∀ (ixs : List IxEntry) (n : Nat),
      (∀ ix ∈ ixs, mp ix.program = true) →
      (∀ ix ∈ ixs, ¬ accountKeys.length < maxAccountIdx ix) →
      (∀ ix ∈ ixs, decode ix = .ok .other) →
      handleTransactionLoop mp decode runHandler accountKeys ixs n = .ok (n + ixs.length) := by
  intro ixs
  induction ixs with
  | nil => intro n _ _ _; simp [handleTransactionLoop]
  | cons ix rest ih =>
    intro n hmp hidx hdec
    have h1 := hmp ix (List.mem_cons_self ix rest)
    have h2 := hidx ix (List.mem_cons_self ix rest)
    have h3 := hdec ix (List.mem_cons_self ix rest)
    simp only [handleTransactionLoop, if_neg h2, h1, if_true, h3]
    rw [ih (n + 1) (fun i hi => hmp i (List.mem_cons_of_mem _ hi))
      (fun i hi => hidx i (List.mem_cons_of_mem _ hi))
      (fun i hi => hdec i (List.mem_cons_of_mem _ hi))]
    simp [Nat.add_comm, Nat.add_assoc, Nat.add_left_comm]

theorem handleTransactionLoop_ok_bound (mp : List Nat → Bool)
    (decode : IxEntry → Except XformErr ParseKind)
    (runHandler : IxEntry → ParseKind → Except XformErr Unit)
    (accountKeys : List (List Nat)) :
    ∀ (ixs : List IxEntry) (n m : Nat),
      (∀ ix ∈ ixs, ∃ k, decode ix = .ok k) →
      handleTransactionLoop mp decode runHandler accountKeys ixs n = .ok m →
      m ≤ n + ixs.length ∧
        (m = n + ixs.length → ∀ ix ∈ ixs, decode ix = .ok .other) := by
  intro ixs
  induction ixs with
  | nil =>
    intro n m _ hloop
    simp [handleTransactionLoop] at hloop
    subst hloop
    exact ⟨by omega, fun _ ix hix => absurd hix (List.not_mem_nil ix)⟩
  | cons ix rest ih =>
    intro n m hdec hloop
    rcases hdec ix (List.mem_cons_self ix rest) with ⟨k, hk⟩
    have hdec' := fun i hi => hdec i (List.mem_cons_of_mem ix hi)
    by_cases hidx : accountKeys.length < maxAccountIdx ix
    · simp [handleTransactionLoop, hidx] at hloop
    · by_cases hmp : mp ix.program
      · simp only [handleTransactionLoop, if_neg hidx, hmp, if_true, hk] at hloop
        cases k with
        | bubblegum =>
          rcases hr : runHandler ix .bubblegum with e | u
          · rw [hr] at hloop; simp at hloop
          · rw [hr] at hloop
            rcases ih n m hdec' hloop with ⟨hle, _⟩
            exact ⟨by simp; omega, fun heq => absurd heq (by simp; omega)⟩
        | accountCompression =>
          rcases hr : runHandler ix .accountCompression with e | u
          · rw [hr] at hloop; simp at hloop
          · rw [hr] at hloop
            rcases ih n m hdec' hloop with ⟨hle, _⟩
            exact ⟨by simp; omega, fun heq => absurd heq (by simp; omega)⟩
        | noop =>
          rcases ih n m hdec' hloop with ⟨hle, _⟩
          exact ⟨by simp; omega, fun heq => absurd heq (by simp; omega)⟩
        | other =>
          rcases ih (n + 1) m hdec' hloop with ⟨hle, hall⟩
          refine ⟨by simp; omega, fun heq => ?_⟩
          intro i hi
          rcases List.mem_cons.mp hi with h1 | h1
          · exact h1 ▸ hk
          · exact hall (by simp at heq ⊢; omega) i h1
      · simp only [handleTransactionLoop, if_neg hidx, hmp, if_false] at hloop
        rcases ih n m hdec' hloop with ⟨hle, _⟩
        exact ⟨by simp; omega, fun heq => absurd heq (by simp; omega)⟩

theorem handleTransactionLoop_error_shape (mp : List Nat → Bool)
    (decode : IxEntry → Except XformErr ParseKind)
    (runHandler : IxEntry → ParseKind → Except XformErr Unit)
    (accountKeys : List (List Nat)) :
    ∀ (ixs : List IxEntry) (n : Nat) (e : XformErr),
      (∀ ix ∈ ixs, ∃ k, decode ix = .ok k) →
      (∀ ix ∈ ixs, ∀ k, runHandler ix k ≠ .error .notImplemented) →
      handleTransactionLoop mp decode runHandler accountKeys ixs n = .error e →
      e ≠ .notImplemented := by
  intro ixs
  induction ixs with
  | nil => intro n e _ _ hloop; simp [handleTransactionLoop] at hloop
  | cons ix rest ih =>
    intro n e hdec hni hloop
    rcases hdec ix (List.mem_cons_self ix rest) with ⟨k, hk⟩
    have hdec' := fun i hi => hdec i (List.mem_cons_of_mem ix hi)
    have hni' := fun i hi => hni i (List.mem_cons_of_mem ix hi)
    by_cases hidx : accountKeys.length < maxAccountIdx ix
    · simp only [handleTransactionLoop, if_pos hidx] at hloop
      cases hloop
      simp
    · by_cases hmp : mp ix.program
      · simp only [handleTransactionLoop, if_neg hidx, hmp, if_true, hk] at hloop
        cases k with
        | bubblegum =>
          rcases hr : runHandler ix .bubblegum with e' | u
          · rw [hr] at hloop
            cases hloop
            intro hcon
            exact hni ix (List.mem_cons_self ix rest) .bubblegum (hcon ▸ hr)
          · rw [hr] at hloop
            exact ih n e hdec' hni' hloop
        | accountCompression =>
          rcases hr : runHandler ix .accountCompression with e' | u
          · rw [hr] at hloop
            cases hloop
            intro hcon
            exact hni ix (List.mem_cons_self ix rest) .accountCompression (hcon ▸ hr)
          · rw [hr] at hloop
            exact ih n e hdec' hni' hloop
        | noop => exact ih n e hdec' hni' hloop
        | other => exact ih (n + 1) e hdec' hni' hloop
      · simp only [handleTransactionLoop, if_neg hidx, hmp, if_false] at hloop
        exact ih n e hdec' hni' hloop

/-- C9: under the dispatch preconditions (every dispatched instruction's program
is registered, indices are in range, decoding succeeds, and no program handler
itself yields the NotImplemented sentinel — the latter per §7, where
NotImplemented means "no decoder matched"), handle_transaction returns
NotImplemented exactly when every dispatched instruction decodes to an
unimplemented (counter-only) result. -/
theorem not_implemented_iff_all_unhandled (mp : List Nat → Bool)
    (decode : IxEntry → Except XformErr ParseKind)
    (runHandler : IxEntry → ParseKind → Except XformErr Unit)
    (accountKeys : List (List Nat)) (ixs : List IxEntry)
    (hmp : ∀ ix ∈ ixs, mp ix.program = true)
    (hidx : ∀ ix ∈ ixs, ¬ accountKeys.length < maxAccountIdx ix)
    (hdec : ∀ ix ∈ ixs, ∃ k, decode ix = .ok k)
    (hni : ∀ ix ∈ ixs, ∀ k, runHandler ix k ≠ .error .notImplemented) :
    handleTransaction mp decode runHandler accountKeys ixs = .error .notImplemented
      ↔ ∀ ix ∈ ixs, decode ix = .ok .other := by
  constructor
  · intro hres
    rcases hloop : handleTransactionLoop mp decode runHandler accountKeys ixs 0 with e | m
    · simp only [handleTransaction, hloop] at hres
      cases hres
      exact absurd rfl
        (handleTransactionLoop_error_shape mp decode runHandler accountKeys ixs 0 _
          hdec hni hloop)
    · simp only [handleTransaction, hloop] at hres
      rcases handleTransactionLoop_ok_bound mp decode runHandler accountKeys ixs 0 m
        hdec hloop with ⟨_, hall⟩
      split at hres
      · next heq => exact hall (by simpa using heq)
      · simp at hres
  · intro hall
    have hloop := handleTransactionLoop_all_other mp decode runHandler accountKeys ixs 0
      hmp hidx hall
    simp [handleTransaction, hloop]

/-- C9 witness: a single registered instruction decoding to an unimplemented
result makes the whole transaction return NotImplemented. -/
theorem not_implemented_iff_all_unhandled_witness :
    handleTransaction (fun _ => true) (fun _ => .ok .other) (fun _ _ => .ok ())
        [[0]] [⟨[1], [0]⟩] = .error .notImplemented := by
  refine (not_implemented_iff_all_unhandled (fun _ => true) (fun _ => .ok .other)
    (fun _ _ => .ok ()) [[0]] [⟨[1], [0]⟩] ?_ ?_ ?_ ?_).mpr ?_
  · intro ix _; rfl
  · intro ix hix
    rcases List.mem_cons.mp hix with h | h
    · subst h; decide
    · exact absurd h (List.not_mem_nil ix)
  · intro ix _; exact ⟨.other, rfl⟩
  · intro ix _ k h; cases h
  · intro ix _; rfl

theorem except_ok_bind {ε α β : Type} (a : α) (f : α → Except ε β) :
    (Except.ok a : Except ε α) >>= f = f a := rfl

theorem except_error_bind {ε α β : Type} (e : ε) (f : α → Except ε β) :
    (Except.error e : Except ε α) >>= f = Except.error e := rfl

theorem except_bind_ok_iff {ε α β : Type} (E : Except ε α) (f : α → Except ε β) (b : β) :
    (E >>= f) = .ok b ↔ ∃ a, E = .ok a ∧ f a = .ok b := by
  cases E <;> simp [Bind.bind, Except.bind]

/-- C1 counterexample: a merkle-tree record without an owning program id makes
handle_full_leaf return CompressedDataParseError ("Tree program not found")
instead of persisting the leaf with schema_validated = false. -/
theorem full_leaf_missing_program_counterexample :
    handleFullLeaf extFix ⟨[⟨[1], [], none, [0], 0⟩], [], [], [], [], 0⟩
        [9] [1] 0 (.obj []) 0 0
      = .error (.compressedDataParse "Tree program not found")
    ∧ ∀ db1, handleFullLeaf extFix ⟨[⟨[1], [], none, [0], 0⟩], [], [], [], [], 0⟩
        [9] [1] 0 (.obj []) 0 0 ≠ .ok db1 := by
  have hE : handleFullLeaf extFix ⟨[⟨[1], [], none, [0], 0⟩], [], [], [], [], 0⟩
      [9] [1] 0 (.obj []) 0 0
      = .error (.compressedDataParse "Tree program not found") := rfl
  exact ⟨hE, fun db1 h => by rw [hE] at h; exact Except.noConfusion h⟩

/-- C1 amended: on a Full leaf, (a) with no tree record the leaf is upserted on
(tree id, leaf index) with schema_validated = false; (b) with a tree record
lacking an owning program id the handler errors with CompressedDataParseError
after deserializing the schema; (c) with a tree record and program id the
stored schema's validate is applied to the data — validation failure surfaces
CompressedDataParseError, and on success the possibly-mutated value is what is
serialized and stored, with schema_validated = true. -/
theorem full_leaf_schema_validation (ext : Ext) (db : DB) (id treeId : List Nat)
    (leafIdx : Int) (data : SchemaValue) (seq slot : Int) :
    (db.merkleTree.find? (fun t => t.id == treeId) = none →
      ∀ raw, ext.serialize data = some raw →
        handleFullLeaf ext db id treeId leafIdx data seq slot
          = .ok { db with compressedData := (upsertCompressed db.compressedData
              ⟨id, treeId, leafIdx, seq, false, raw, ext.svToJson data, slot⟩) })
  ∧ (∀ tree, db.merkleTree.find? (fun t => t.id == treeId) = some tree →
      tree.program = none → (ext.schemaOfBytes tree.dataSchema).isSome = true →
        handleFullLeaf ext db id treeId leafIdx data seq slot
          = .error (.compressedDataParse "Tree program not found"))
  ∧ (∀ tree p validate, db.merkleTree.find? (fun t => t.id == treeId) = some tree →
      tree.program = some p → p.length = 32 →
      ext.schemaOfBytes tree.dataSchema = some validate →
        (validate data = none →
          handleFullLeaf ext db id treeId leafIdx data seq slot
            = .error (.compressedDataParse "Schema value validation failed"))
      ∧ (∀ data' raw, validate data = some data' → ext.serialize data' = some raw →
          ∃ db1, handleFullLeaf ext db id treeId leafIdx data seq slot = .ok db1
            ∧ db1.compressedData = upsertCompressed db.compressedData
                ⟨id, treeId, leafIdx, seq, true, raw, ext.svToJson data', slot⟩
            ∧ db1.changelog = db.changelog)) := by
  refine ⟨?_, ?_, ?_⟩
  · intro h raw hraw
    simp [handleFullLeaf, h, hraw, except_ok_bind]
  · intro tree htree hnone hsome
    rcases Option.isSome_iff_exists.mp hsome with ⟨v, hv⟩
    simp [handleFullLeaf, htree, hv, hnone, except_error_bind]
  · intro tree p validate htree hp hlen hschema
    constructor
    · intro hval
      simp [handleFullLeaf, htree, hschema, hp, pubkeyTryFrom, hlen, hval,
        except_error_bind]
    · intro data' raw hval hraw
      unfold handleFullLeaf
      rw [htree]
      simp only [hschema, hp, hval, hraw, pubkeyTryFrom, hlen, if_pos, except_ok_bind]
      simp only [newCharacterEvent]
      repeat' split
      all_goals exact ⟨_, rfl, rfl, rfl⟩

/-- C1 amended witness: with a stored tree record whose schema accepts the
value unchanged, the leaf row is created with schema_validated = true. -/
theorem full_leaf_schema_validation_witness :
    ∃ db1, handleFullLeaf extFix
        ⟨[⟨[1], [], some (List.replicate 32 0), [0], 0⟩], [], [], [], [], 0⟩
        [9] [1] 0 (.obj []) 0 0 = .ok db1
      ∧ db1.compressedData = upsertCompressed []
          ⟨[9], [1], 0, 0, true, [], extFix.svToJson (.obj []), 0⟩
      ∧ db1.changelog = [] :=
  ((full_leaf_schema_validation extFix
      ⟨[⟨[1], [], some (List.replicate 32 0), [0], 0⟩], [], [], [], [], 0⟩
      [9] [1] 0 (.obj []) 0 0).2.2
    ⟨[1], [], some (List.replicate 32 0), [0], 0⟩ (List.replicate 32 0)
    (fun v => some v) rfl rfl rfl rfl).2 (.obj []) [] rfl rfl

/-- C10: a PatchChunk whose leaf row exists but whose key is absent from the
stored parsed_data object (or whose parsed_data is not an object) leaves
parsed_data unchanged, still overwrites slot_updated with the event slot and
persists the row, and still appends a changelog row with key = Some(key), the
event data, sequence and slot; character history, trees and accounts are
untouched.  (The tree row, when present, is required to resolve to a program id
— a null or malformed program column panics in the source.) -/
theorem patch_unknown_key_frame (ext : Ext) (db : DB) (treeId : List Nat)
    (leafIdx : Nat) (key : String) (data : SchemaValue) (seq slot : Nat)
    (row : CompressedDataRow)
    (hfind : db.compressedData.find? (fun r => r.id == ext.hashv treeId (u32le leafIdx))
      = some row)
    (hprog : ∃ v, resolveTreeProgram db row.treeId = .ok v)
    (hkey : ∀ o, row.parsedData = .obj o → (o.find? (fun kv => kv.1 == key)).isSome = false) :
    handleLeaf ext db treeId leafIdx (.patchChunk key data) seq slot
      = .ok { db with
          compressedData := (db.compressedData.map (fun r =>
            if r.id == ext.hashv treeId (u32le leafIdx) then
              { r with parsedData := row.parsedData, slotUpdated := i64cast slot }
            else r)),
          changelog := (db.changelog ++
            [⟨treeId, Int.ofNat leafIdx, some key, ext.svToJson data,
              i64cast seq, i64cast slot⟩]) } := by
  rcases hprog with ⟨v, hv⟩
  simp only [handleLeaf, handleLeafPatch, hfind, hv, except_ok_bind]
  rcases hpd : row.parsedData with _ | b | n | s | a | o
  case obj =>
    have hk := hkey o hpd
    simp only [hpd, hk, Bool.false_eq_true, if_false, except_ok_bind, handleChangeLog]
  all_goals simp only [hpd, except_ok_bind, handleChangeLog]

/-- C10 witness: patching key "b" into a leaf whose object only has key "a"
keeps parsed_data, bumps slot_updated to 9 and appends the changelog row. -/
theorem patch_unknown_key_frame_witness :
    handleLeaf extFix
        ⟨[], [⟨[1, 0, 0, 0, 0], [1], 0, 0, false, [], .obj [("a", .null)], 0⟩],
         [], [], [], 0⟩
        [1] 0 (.patchChunk "b" (.bool true)) 7 9
      = .ok ⟨[], [⟨[1, 0, 0, 0, 0], [1], 0, 0, false, [], .obj [("a", .null)], 9⟩],
             [⟨[1], 0, some "b", .null, 7, 9⟩], [], [], 0⟩ := by
  have h := patch_unknown_key_frame extFix
    ⟨[], [⟨[1, 0, 0, 0, 0], [1], 0, 0, false, [], .obj [("a", .null)], 0⟩], [], [], [], 0⟩
    [1] 0 "b" (.bool true) 7 9
    ⟨[1, 0, 0, 0, 0], [1], 0, 0, false, [], .obj [("a", .null)], 0⟩
    rfl ⟨none, rfl⟩
    (by intro o ho
        obtain rfl : o = [("a", JsonValue.null)] := by
          injection ho with h2; exact h2.symm
        rfl)
  rw [h]
  rfl

theorem newCharacterEvent_ok_shape (ext : Ext) (db : DB) (cid : List Nat)
    (nv : SchemaValue) (ev : String) (slot : Int) (db1 : DB)
    (hN : newCharacterEvent ext db cid nv ev slot = .ok db1) :
    (db.characterHistory.any (fun h => h.characterId == cid && h.event == ev
        && h.slotUpdated == slot) = true → db1.characterHistory = db.characterHistory)
  ∧ (db.characterHistory.any (fun h => h.characterId == cid && h.event == ev
        && h.slotUpdated == slot) = false →
      ∃ payload, db1.characterHistory
        = db.characterHistory ++ [⟨db.nextHistoryId, cid, ev, payload, slot⟩]) := by
  by_cases hdup : db.characterHistory.any (fun h => h.characterId == cid && h.event == ev
      && h.slotUpdated == slot) = true
  · simp only [newCharacterEvent, hdup, if_true] at hN
    have hdb : db = db1 := by simpa using hN
    subst hdb
    exact ⟨fun _ => rfl, fun hfalse => by rw [hdup] at hfalse; cases hfalse⟩
  · have hdup' : (db.characterHistory.any (fun h => h.characterId == cid && h.event == ev
        && h.slotUpdated == slot)) = false := by
      revert hdup; cases db.characterHistory.any _ <;> simp
    simp only [newCharacterEvent, hdup', Bool.false_eq_true, if_false] at hN
    have hdb1 : db1 = { db with
        characterHistory := db.characterHistory ++
          [{ id := db.nextHistoryId, characterId := cid, event := ev,
             eventData := ext.svToJson nv, slotUpdated := slot }],
        nextHistoryId := db.nextHistoryId + 1 } := by
      simpa using hN.symm
    subst hdb1
    refine ⟨fun htrue => ?_, fun _ => ⟨ext.svToJson nv, rfl⟩⟩
    rw [hdup'] at htrue; cases htrue

/-- C4 counterexample: a (Mission → None) patch whose pre-value has a collected
reward, replayed against a store with no matching participation history, errors
with StorageReadError and inserts nothing, even though no row with the same
(character id, event, slot) exists — so "inserted iff no duplicate exists" is
false as stated. -/
theorem character_history_recall_error_counterexample :
    logCharacterHistory extFix ⟨[], [], [], [], [], 0⟩ [7]
        (.enum "Mission" (.obj [("participation_id", .str "p1"),
          ("rewards", .arr [.obj [("collected", .bool true)]])]))
        (.enum "None" (.obj [])) 5
      = .error (.storageRead "Could not find old character history data in the db")
    ∧ eventForTransition "Mission" "None" = some "RecallFromMission"
    ∧ ([] : List CharacterHistoryRow).any (fun h => h.characterId == [7]
        && h.event == "RecallFromMission" && h.slotUpdated == (5 : Int)) = false :=
  ⟨rfl, rfl, rfl⟩

/-- C4 amended: when log_character_history returns successfully on two tagged
enum values, the inserted event is determined exactly by the transition table
(eventForTransition, shown equal to the spec's table eventForTransitionSpec),
unmatched transitions insert nothing, and a matched event row is inserted iff
no row with the same (character id, event, slot) exists; when the
RecallFromMission reward-resolution sub-path fails (missing participation
history, malformed mission id, missing mission account or malformed account
data) the call errors and nothing is inserted. -/
theorem character_history_transition_insert (ext : Ext) (db : DB) (cid : List Nat)
    (preKind newKind : String) (preParams newParams : SchemaValue) (slot : Int)
    (db1 : DB)
    (hok : logCharacterHistory ext db cid (.enum preKind preParams)
      (.enum newKind newParams) slot = .ok db1) :
    (eventForTransition preKind newKind = none → db1 = db)
  ∧ (∀ ev, eventForTransition preKind newKind = some ev →
      (db.characterHistory.any (fun h => h.characterId == cid && h.event == ev
          && h.slotUpdated == slot) = true → db1.characterHistory = db.characterHistory)
    ∧ (db.characterHistory.any (fun h => h.characterId == cid && h.event == ev
          && h.slotUpdated == slot) = false →
        ∃ payload, db1.characterHistory
          = db.characterHistory ++ [⟨db.nextHistoryId, cid, ev, payload, slot⟩]))
  ∧ (∀ p n, eventForTransition p n = eventForTransitionSpec p n) := by
  refine ⟨?_, ?_, ?_⟩
  · intro hev
    simp only [logCharacterHistory, hev] at hok
    exact (Except.ok.injEq _ _ ▸ hok).symm
  · intro ev hev
    simp only [logCharacterHistory, hev] at hok
    have hex : ∃ nv, newCharacterEvent ext db cid nv ev slot = .ok db1 := by
      repeat' split at hok
      all_goals
        rw [except_bind_ok_iff] at hok
        rcases hok with ⟨nv, hE, hN⟩
        exact ⟨nv, hN⟩
    rcases hex with ⟨nv, hN⟩
    exact newCharacterEvent_ok_shape ext db cid nv ev slot db1 hN
  · intro p n
    unfold eventForTransition eventForTransitionSpec
    split <;> simp_all
    split_ifs <;> simp_all

/-- C4 amended witness: a Staking → None patch on an empty history inserts one
UnStaked row. -/
theorem character_history_transition_insert_witness :
    logCharacterHistory extFix ⟨[], [], [], [], [], 0⟩ [7] (.enum "Staking" (.obj []))
        (.enum "None" (.obj [])) 5
      = .ok ⟨[], [], [], [⟨0, [7], "UnStaked", .null, 5⟩], [], 1⟩
    ∧ ∃ payload, ([⟨0, [7], "UnStaked", JsonValue.null, 5⟩] : List CharacterHistoryRow)
        = [] ++ [⟨0, [7], "UnStaked", payload, 5⟩] := by
  have hok : logCharacterHistory extFix ⟨[], [], [], [], [], 0⟩ [7]
      (.enum "Staking" (.obj [])) (.enum "None" (.obj [])) 5
      = .ok ⟨[], [], [], [⟨0, [7], "UnStaked", .null, 5⟩], [], 1⟩ := rfl
  refine ⟨hok, ?_⟩
  exact ((character_history_transition_insert extFix ⟨[], [], [], [], [], 0⟩ [7]
    "Staking" "None" (.obj []) (.obj []) 5
    ⟨[], [], [], [⟨0, [7], "UnStaked", .null, 5⟩], [], 1⟩ hok).2.1 "UnStaked" rfl).2 rfl

theorem updateFirst_length {α : Type} (p : α → Bool) (f : α → α) :
    ∀ l : List α, (updateFirst p f l).length = l.length
  | [] => rfl
  | x :: xs => by
    unfold updateFirst
    by_cases hp : p x
    · simp [hp]
    · simp [hp, updateFirst_length p f xs]

theorem updateFirst_get {α : Type} (p : α → Bool) (f : α → α) :
    ∀ (l : List α) (i : Nat) (h : i < l.length) (h' : i < (updateFirst p f l).length),
      (updateFirst p f l).get ⟨i, h'⟩ = l.get ⟨i, h⟩ ∨
        ((updateFirst p f l).get ⟨i, h'⟩ = f (l.get ⟨i, h⟩) ∧ p (l.get ⟨i, h⟩) = true)
  | [], i, h, _ => absurd h (by simp)
  | x :: xs, 0, h, h' => by
    by_cases hp : p x
    · right
      constructor
      · show (updateFirst p f (x :: xs)).get ⟨0, h'⟩ = f x
        simp [updateFirst, hp]
      · exact hp
    · left
      show (updateFirst p f (x :: xs)).get ⟨0, h'⟩ = x
      simp [updateFirst, hp]
  | x :: xs, i + 1, h, h' => by
    by_cases hp : p x
    · left
      have hg : updateFirst p f (x :: xs) = f x :: xs := by simp [updateFirst, hp]
      rw [List.get_of_eq hg]
      rfl
    · have hg : updateFirst p f (x :: xs) = x :: updateFirst p f xs := by
        simp [updateFirst, hp]
      have hlen : i < (updateFirst p f xs).length := by
        rw [updateFirst_length]
        exact Nat.lt_of_succ_lt_succ h
      have := updateFirst_get p f xs i (Nat.lt_of_succ_lt_succ h) hlen
      rcases this with h1 | ⟨h1, h2⟩
      · left
        rw [List.get_of_eq hg]
        exact h1
      · right
        refine ⟨?_, h2⟩
        rw [List.get_of_eq hg]
        exact h1

theorem upsertOwner_assets (db : TokenDB) (row : TokenAccountRow) :
    (upsertOwnerForTokenAccount db row).assets = db.assets := by
  unfold upsertOwnerForTokenAccount
  split <;> rfl

/-- C6: a token-account update mutates an asset row (owner, delegate or frozen)
only when the stored asset's supply is 1, the token account's amount is
positive, and the stored slot_updated is null or at most the incoming slot;
consequently no token-account update ever decreases an asset's slot_updated.
Asset ids are assumed unique (primary key). -/
theorem token_account_asset_mutation_guard (db : TokenDB) (ta : TokenAcctInfo)
    (accountInfo : AccountEnvelope) (extensions : JsonValue) (db1 : TokenDB)
    (hnodup : (db.assets.map (fun a => a.id)).Nodup)
    (hok : handleToken2022TokenAccount db ta accountInfo extensions = .ok db1) :
    (∀ (i : Nat) (h : i < db.assets.length) (h' : i < db1.assets.length),
      ((db1.assets.get ⟨i, h'⟩).owner ≠ (db.assets.get ⟨i, h⟩).owner ∨
       (db1.assets.get ⟨i, h'⟩).delegate ≠ (db.assets.get ⟨i, h⟩).delegate ∨
       (db1.assets.get ⟨i, h'⟩).frozen ≠ (db.assets.get ⟨i, h⟩).frozen) →
        (db.assets.get ⟨i, h⟩).supply = 1 ∧ 0 < ta.amount ∧
          ((db.assets.get ⟨i, h⟩).slotUpdated = none ∨
            ∃ s, (db.assets.get ⟨i, h⟩).slotUpdated = some s ∧ s ≤ i64cast accountInfo.slot))
  ∧ (∀ (i : Nat) (h : i < db.assets.length) (h' : i < db1.assets.length) (s : Int),
      (db.assets.get ⟨i, h⟩).slotUpdated = some s →
        ∃ s', (db1.assets.get ⟨i, h'⟩).slotUpdated = some s' ∧ s ≤ s') := by
  have htriv : db1.assets = db.assets →
      (∀ (i : Nat) (h : i < db.assets.length) (h' : i < db1.assets.length),
        ((db1.assets.get ⟨i, h'⟩).owner ≠ (db.assets.get ⟨i, h⟩).owner ∨
         (db1.assets.get ⟨i, h'⟩).delegate ≠ (db.assets.get ⟨i, h⟩).delegate ∨
         (db1.assets.get ⟨i, h'⟩).frozen ≠ (db.assets.get ⟨i, h⟩).frozen) →
          (db.assets.get ⟨i, h⟩).supply = 1 ∧ 0 < ta.amount ∧
            ((db.assets.get ⟨i, h⟩).slotUpdated = none ∨
              ∃ s, (db.assets.get ⟨i, h⟩).slotUpdated = some s ∧
                s ≤ i64cast accountInfo.slot))
    ∧ (∀ (i : Nat) (h : i < db.assets.length) (h' : i < db1.assets.length) (s : Int),
        (db.assets.get ⟨i, h⟩).slotUpdated = some s →
          ∃ s', (db1.assets.get ⟨i, h'⟩).slotUpdated = some s' ∧ s ≤ s') := by
    intro heq
    constructor
    · intro i h h' hne
      exfalso
      have hg : db1.assets.get ⟨i, h'⟩ = db.assets.get ⟨i, h⟩ := List.get_of_eq heq _
      rcases hne with hn | hn | hn <;> exact hn (by rw [hg])
    · intro i h h' s hs
      have hg : db1.assets.get ⟨i, h'⟩ = db.assets.get ⟨i, h⟩ := List.get_of_eq heq _
      exact ⟨s, by rw [hg]; exact hs, le_refl s⟩
  simp only [handleToken2022TokenAccount] at hok
  split at hok
  · rename_i asset hfound
    rw [upsertOwner_assets] at hfound
    have hmem := List.mem_of_find?_eq_some hfound
    have hpa := List.find?_some hfound
    simp only [Bool.and_eq_true, beq_iff_eq] at hpa
    rcases hpa with ⟨⟨hid, hsingle⟩, hslotcond⟩
    split at hok
    · rename_i hsupply
      split at hok
      · rename_i hsave
        simp only [Except.ok.injEq] at hok
        have hamount : 0 < ta.amount := by
          simp only [Bool.or_eq_true, Bool.and_eq_true, decide_eq_true_eq] at hsave
          rcases hsave with (⟨hy, _⟩ | ⟨hy, _⟩) | ⟨hy, _⟩ <;> exact hy
        have hany : db.assets.any (fun a => a.id == ta.mint) = true := by
          rw [List.any_eq_true]
          exact ⟨asset, hmem, by simp [hid]⟩
        set setF : AssetRow → AssetRow := fun a => { a with owner := some ta.owner, delegate := ta.delegate, frozen := ta.state == AcctState.frozen, slotUpdated := some (i64cast accountInfo.slot), mintExtensions := some extensions } with hsetF
        have hassets1 : db1.assets
            = updateFirst (fun a => a.id == ta.mint) setF db.assets := by
          rw [← hok]
          unfold upsertAssetsTokenAccountColumns
          rw [upsertOwner_assets]
          rw [if_pos hany]
        have hsup1 : asset.supply = 1 := beq_iff_eq.mp hsupply
        constructor
        · intro i h h' hne
          have h'' : i < (updateFirst (fun a => a.id == ta.mint) setF db.assets).length := by
            rw [← hassets1]; exact h'
          have hget : db1.assets.get ⟨i, h'⟩
              = (updateFirst (fun a => a.id == ta.mint) setF db.assets).get ⟨i, h''⟩ :=
            List.get_of_eq hassets1 _
          rcases updateFirst_get (fun a => a.id == ta.mint) setF db.assets i h h''
            with hsame | ⟨hupd, hpmint⟩
          · exfalso
            rw [hget, hsame] at hne
            rcases hne with hn | hn | hn <;> exact hn rfl
          · have haeq : db.assets.get ⟨i, h⟩ = asset := by
              apply List.inj_on_of_nodup_map hnodup (List.get_mem _ _ _) hmem
              simp only [beq_iff_eq] at hpmint
              rw [hpmint, hid]
            refine ⟨by rw [haeq, hsup1], hamount, ?_⟩
            rw [haeq]
            rcases hsu : asset.slotUpdated with _ | s
            · exact Or.inl rfl
            · refine Or.inr ⟨s, rfl, ?_⟩
              rw [hsu] at hslotcond
              exact of_decide_eq_true hslotcond
        · intro i h h' s hs
          have h'' : i < (updateFirst (fun a => a.id == ta.mint) setF db.assets).length := by
            rw [← hassets1]; exact h'
          have hget : db1.assets.get ⟨i, h'⟩
              = (updateFirst (fun a => a.id == ta.mint) setF db.assets).get ⟨i, h''⟩ :=
            List.get_of_eq hassets1 _
          rcases updateFirst_get (fun a => a.id == ta.mint) setF db.assets i h h''
            with hsame | ⟨hupd, hpmint⟩
          · exact ⟨s, by rw [hget, hsame]; exact hs, le_refl s⟩
          · have haeq : db.assets.get ⟨i, h⟩ = asset := by
              apply List.inj_on_of_nodup_map hnodup (List.get_mem _ _ _) hmem
              simp only [beq_iff_eq] at hpmint
              rw [hpmint, hid]
            refine ⟨i64cast accountInfo.slot, by rw [hget, hupd], ?_⟩
            rw [haeq] at hs
            rw [hs] at hslotcond
            exact of_decide_eq_true hslotcond
      · simp only [Except.ok.injEq] at hok
        exact htriv (by rw [← hok]; exact upsertOwner_assets _ _)
    · simp only [Except.ok.injEq] at hok
      exact htriv (by rw [← hok]; exact upsertOwner_assets _ _)
  · simp only [Except.ok.injEq] at hok
    exact htriv (by rw [← hok]; exact upsertOwner_assets _ _)

/-- C6 witness: an NFT asset (supply 1, stored slot 5) whose owner changes at
slot 10 keeps a non-decreasing slot_updated. -/
theorem token_account_asset_mutation_guard_witness :
    handleToken2022TokenAccount
        ⟨[⟨[1], some [2], none, false, 1, some 5, "single", none⟩], []⟩
        ⟨[1], [3], none, .initialized, 1, 0⟩ ⟨10, [9], [8]⟩ .null
      = .ok ⟨[⟨[1], some [3], none, false, 1, some 10, "single", some .null⟩],
             [⟨[9], [1], [3], none, false, 1, 0, 10, [8]⟩]⟩
    ∧ ∃ s' : Int,
        ((⟨[⟨[1], some [3], none, false, 1, some 10, "single", some .null⟩],
           [⟨[9], [1], [3], none, false, 1, 0, 10, [8]⟩]⟩ : TokenDB).assets.get
          ⟨0, by decide⟩).slotUpdated = some s' ∧ (5 : Int) ≤ s' := by
  have hok : handleToken2022TokenAccount
      ⟨[⟨[1], some [2], none, false, 1, some 5, "single", none⟩], []⟩
      ⟨[1], [3], none, .initialized, 1, 0⟩ ⟨10, [9], [8]⟩ .null
      = .ok ⟨[⟨[1], some [3], none, false, 1, some 10, "single", some .null⟩],
             [⟨[9], [1], [3], none, false, 1, 0, 10, [8]⟩]⟩ := rfl
  refine ⟨hok, ?_⟩
  exact (token_account_asset_mutation_guard
    ⟨[⟨[1], some [2], none, false, 1, some 5, "single", none⟩], []⟩
    ⟨[1], [3], none, .initialized, 1, 0⟩ ⟨10, [9], [8]⟩ .null
    ⟨[⟨[1], some [3], none, false, 1, some 10, "single", some .null⟩],
     [⟨[9], [1], [3], none, false, 1, 0, 10, [8]⟩]⟩
    (by simp) hok).2 0 (by decide) (by decide) 5 rfl

end DasCore
